import Mathlib

/-!
Verification of the desktop-pet dialogue/memory core (`src-tauri/src/memory.rs`
and `src-tauri/src/dialogue.rs`) against its natural-language specification.

The Rust code is shallowly embedded: vectors become lists, `&str`/`String`
become `String`, fallible external effects (environment variable lookup, the
file system, the HTTP round trip, `serde_json` parsing of the response body)
become explicit parameters of `Option`/sum type, and the JSON (de)serialization
performed by the external `serde_json` crate is modelled by an executable
encoder/decoder pair over the concrete `ChatMemory` document shape.
-/

namespace DesktopPet

/-! ## Memory store (`memory.rs`) -/

/-- `MAX_MESSAGE_PAIRS` in `memory.rs`. -/
def MAX_MESSAGE_PAIRS : Nat := 20

/-- `MAX_FACTS` in `memory.rs`. -/
def MAX_FACTS : Nat := 50

/-- `MemoryMessage` in `memory.rs`: one stored chat message. -/
structure MemoryMessage where
  role : String
  content : String
deriving DecidableEq, Repr

/-- `ChatMemory` in `memory.rs`: the persisted record. -/
structure ChatMemory where
  messages : List MemoryMessage
  facts : List String
deriving DecidableEq, Repr

/-- The `Default::default()` value of `ChatMemory`: both vectors empty. -/
def emptyMemory : ChatMemory := ⟨[], []⟩

/-- `add_exchange` in `memory.rs`: push a user message and an assistant
message, then drain the excess from the front when the vector exceeds
`MAX_MESSAGE_PAIRS * 2` entries. -/
def add_exchange (memory : ChatMemory) (user_msg assistant_msg : String) : ChatMemory :=
  let msgs := memory.messages ++ [⟨"user", user_msg⟩, ⟨"assistant", assistant_msg⟩]
  let max_messages := MAX_MESSAGE_PAIRS * 2
  if msgs.length > max_messages then
    { memory with messages := msgs.drop (msgs.length - max_messages) }
  else
    { memory with messages := msgs }

/-- `add_fact` in `memory.rs`: skip duplicates, push, and remove the single
oldest entry (index 0) when the vector exceeds `MAX_FACTS`. -/
def add_fact (memory : ChatMemory) (fact : String) : ChatMemory :=
  if memory.facts.any (fun f => f == fact) then memory
  else
    let facts := memory.facts ++ [fact]
    if facts.length > MAX_FACTS then { memory with facts := facts.eraseIdx 0 }
    else { memory with facts := facts }

/-! ## JSON codec for the persisted document

`save_memory` serializes with `serde_json::to_string_pretty` and `load_memory`
parses with `serde_json::from_str`; `serde_json` is an external crate, so its
behaviour on the concrete `ChatMemory` document shape is modelled here by an
executable encoder/decoder pair.  The string escaping follows serde_json's
rules: `"`, `\`, backspace, form feed, `\n`, `\r`, `\t` get two-character
escapes, all other control characters below 0x20 get `\u00XX` with lowercase
hex, and everything else is emitted literally. -/

/-- Value of one hex digit, accepting both cases (JSON `\uXXXX` digits). -/
def hexVal (c : Char) : Option Nat :=
  if '0' ≤ c ∧ c ≤ '9' then some (c.toNat - '0'.toNat)
  else if 'a' ≤ c ∧ c ≤ 'f' then some (c.toNat - 'a'.toNat + 10)
  else if 'A' ≤ c ∧ c ≤ 'F' then some (c.toNat - 'A'.toNat + 10)
  else none

/-- serde_json's escaping of a single character inside a JSON string. -/
def escapeChar (c : Char) : List Char :=
  if c = '"' then ['\\', '"']
  else if c = '\\' then ['\\', '\\']
  else if c = '\x08' then ['\\', 'b']
  else if c = '\x0c' then ['\\', 'f']
  else if c = '\n' then ['\\', 'n']
  else if c = '\r' then ['\\', 'r']
  else if c = '\t' then ['\\', 't']
  else if c.toNat < 32 then
    ['\\', 'u', '0', '0', Nat.digitChar (c.toNat / 16), Nat.digitChar (c.toNat % 16)]
  else [c]

/-- The character named by a two-character JSON escape (`\"`, `\\`, `\/`,
`\b`, `\f`, `\n`, `\r`, `\t`). -/
def unescapeChar (c : Char) : Option Char :=
  if c = '"' then some '"'
  else if c = '\\' then some '\\'
  else if c = '/' then some '/'
  else if c = 'b' then some '\x08'
  else if c = 'f' then some '\x0c'
  else if c = 'n' then some '\n'
  else if c = 'r' then some '\r'
  else if c = 't' then some '\t'
  else none

/-- Parse the body of a JSON string after the opening quote, up to and
including the closing quote; raw control characters are rejected, as
serde_json does. -/
def parseStringBody : List Char → Option (List Char × List Char)
  | [] => none
  | c :: rest =>
    if c = '"' then some ([], rest)
    else if c = '\\' then
      match rest with
      | 'u' :: h1 :: h2 :: h3 :: h4 :: rest2 =>
        match hexVal h1, hexVal h2, hexVal h3, hexVal h4 with
        | some a, some b, some c2, some d =>
          match parseStringBody rest2 with
          | some (s, r) => some (Char.ofNat (((a * 16 + b) * 16 + c2) * 16 + d) :: s, r)
          | none => none
        | _, _, _, _ => none
      | e :: rest2 =>
        match unescapeChar e with
        | some ch =>
          match parseStringBody rest2 with
          | some (s, r) => some (ch :: s, r)
          | none => none
        | none => none
      | [] => none
    else if c.toNat < 32 then none
    else
      match parseStringBody rest with
      | some (s, r) => some (c :: s, r)
      | none => none

/-- A `String` rendered as a JSON string literal (character list). -/
def encodeJsonString (s : String) : List Char :=
  '"' :: (s.data.flatMap escapeChar ++ ['"'])

/-- Parse a JSON string literal, returning the decoded string and the rest. -/
def parseJsonString : List Char → Option (String × List Char)
  | '"' :: rest =>
    match parseStringBody rest with
    | some (s, r) => some (String.mk s, r)
    | none => none
  | _ => none

/-- Consume an expected literal character sequence. -/
def expectChars : List Char → List Char → Option (List Char)
  | [], cs => some cs
  | l :: ls, c :: cs => if c = l then expectChars ls cs else none
  | _ :: _, [] => none

/-- One `MemoryMessage` rendered as a JSON object. -/
def encodeMessageJson (m : MemoryMessage) : List Char :=
  ("\x7b\"role\":".data) ++ encodeJsonString m.role
    ++ (",\"content\":".data) ++ encodeJsonString m.content ++ ['}']

/-- Parse one `MemoryMessage` JSON object. -/
def parseMessageJson (cs : List Char) : Option (MemoryMessage × List Char) :=
  match expectChars ("\x7b\"role\":".data) cs with
  | none => none
  | some cs1 =>
    match parseJsonString cs1 with
    | none => none
    | some (role, cs2) =>
      match expectChars (",\"content\":".data) cs2 with
      | none => none
      | some cs3 =>
        match parseJsonString cs3 with
        | none => none
        | some (content, cs4) =>
          match cs4 with
          | [] => none
          | c :: cs5 => if c = '}' then some (⟨role, content⟩, cs5) else none

/-- Comma-separated rendering of a list of elements (no brackets). -/
def encodeSepBody {α : Type} (enc : α → List Char) : List α → List Char
  | [] => []
  | [x] => enc x
  | x :: y :: xs => enc x ++ ',' :: encodeSepBody enc (y :: xs)

/-- Parse comma-separated elements up to and including the closing `]`.
The `fuel` argument bounds the number of elements and makes the recursion
structural; callers pass the input length, which always suffices. -/
def parseArrayItems {α : Type} (pElem : List Char → Option (α × List Char)) :
    Nat → List Char → Option (List α × List Char)
  | fuel, cs =>
    match cs with
    | [] => none
    | c :: rest =>
      if c = ']' then some ([], rest)
      else
        match fuel with
        | 0 => none
        | fuel' + 1 =>
          match pElem (c :: rest) with
          | none => none
          | some (x, cs2) =>
            match cs2 with
            | [] => none
            | c2 :: cs3 =>
              if c2 = ',' then
                match parseArrayItems pElem fuel' cs3 with
                | none => none
                | some (xs, r) => some (x :: xs, r)
              else if c2 = ']' then some ([x], cs3)
              else none

/-- The whole persisted `ChatMemory` document as a JSON string
(model of `serde_json::to_string_pretty`, modulo insignificant whitespace). -/
def encodeMemory (m : ChatMemory) : String :=
  String.mk (("\x7b\"messages\":[".data) ++ encodeSepBody encodeMessageJson m.messages
    ++ [']'] ++ (",\"facts\":[".data) ++ encodeSepBody encodeJsonString m.facts
    ++ [']', '}'])

/-- Parse the persisted `ChatMemory` document
(model of `serde_json::from_str::<ChatMemory>`). -/
def parseMemoryDoc (cs : List Char) : Option ChatMemory :=
  match expectChars ("\x7b\"messages\":[".data) cs with
  | none => none
  | some cs1 =>
    match parseArrayItems parseMessageJson cs1.length cs1 with
    | none => none
    | some (msgs, cs2) =>
      match expectChars (",\"facts\":[".data) cs2 with
      | none => none
      | some cs3 =>
        match parseArrayItems parseJsonString cs3.length cs3 with
        | none => none
        | some (facts, cs4) =>
          if cs4 = ['}'] then some (⟨msgs, facts⟩ : ChatMemory) else none

/-- Parse the persisted document from a `String`. -/
def parseMemory (s : String) : Option ChatMemory := parseMemoryDoc s.data

/-- `load_memory` in `memory.rs`.  The file system is modelled by an
`Option String`: `none` covers both "no app-data path" and "read failed"
(each returns `ChatMemory::default()`), `some data` is a successful read,
after which `serde_json::from_str(&data).unwrap_or_default()` becomes
`(parseMemory data).getD emptyMemory`. -/
def load_memory (file : Option String) : ChatMemory :=
  match file with
  | none => emptyMemory
  | some data => (parseMemory data).getD emptyMemory

/-- `save_memory` in `memory.rs`: the content written to the file
(`serde_json::to_string_pretty` on this type never fails; a failed
`fs::write` leaves the previous file, which `save_memory` ignores). -/
def save_memory (memory : ChatMemory) : Option String := some (encodeMemory memory)

/-! ## Dialogue orchestration (`dialogue.rs`) -/

/-- ASCII whitespace as matched by Rust's `str::trim` (Unicode
`White_Space`, restricted here to its ASCII members). -/
def rustIsWs (c : Char) : Bool :=
  c = ' ' ∨ c = '\t' ∨ c = '\n' ∨ c = '\r' ∨ c = '\x0b' ∨ c = '\x0c'

/-- Rust `str::trim` on a character list: drop whitespace at both ends. -/
def rustTrim (cs : List Char) : List Char :=
  ((cs.dropWhile rustIsWs).reverse.dropWhile rustIsWs).reverse

/-- Rust `str::trim` on a `String`. -/
def trimString (s : String) : String := String.mk (rustTrim s.data)

/-- The regex class `\s` (ASCII members). -/
def regexWs (c : Char) : Bool :=
  c = ' ' ∨ c = '\t' ∨ c = '\n' ∨ c = '\r' ∨ c = '\x0b' ∨ c = '\x0c'

/-- The literal head of the pattern `\[REMEMBER:\s*(.+?)\]`. -/
def tagChars : List Char := "[REMEMBER:".data

/-- The lazy `(.+?)\]` tail of the pattern: the shortest non-empty run of
non-newline characters followed by a literal `]`.  Returns the capture and
the remainder after the `]`. -/
def lazyCapture : List Char → Option (List Char × List Char)
  | [] => none
  | c :: rest =>
    if c = '\n' then none
    else
      match rest with
      | ']' :: rest2 => some ([c], rest2)
      | _ =>
        match lazyCapture rest with
        | some (cap, rem) => some (c :: cap, rem)
        | none => none

/-- Backtracking for `\s*`: try consuming `w` whitespace characters first
(the greedy choice), then fewer, before attempting `(.+?)\]`. -/
def tryWsFrom : Nat → List Char → Option (List Char × List Char)
  | 0, cs => lazyCapture cs
  | w + 1, cs =>
    match lazyCapture (cs.drop (w + 1)) with
    | some r => some r
    | none => tryWsFrom w cs

/-- Match `\s*(.+?)\]` at the start of `cs` (the part of the pattern after
the literal `[REMEMBER:`). -/
def matchAfterTag (cs : List Char) : Option (List Char × List Char) :=
  tryWsFrom (cs.takeWhile regexWs).length cs

/-- Left-to-right non-overlapping scan of `captures_iter`/`replace_all` for
`\[REMEMBER:\s*(.+?)\]`: returns the text with each match removed and the
list of raw captures.  `fuel` (the input length at the top call) makes the
recursion structural; it never runs out because a match consumes at least
twelve characters. -/
def extractAux : Nat → List Char → List Char × List (List Char)
  | _, [] => ([], [])
  | 0, cs => (cs, [])
  | fuel + 1, c :: rest =>
    if tagChars.isPrefixOf (c :: rest) then
      match matchAfterTag ((c :: rest).drop tagChars.length) with
      | some (cap, rem) =>
        let (cl, fs) := extractAux fuel rem
        (cl, cap :: fs)
      | none =>
        let (cl, fs) := extractAux fuel rest
        (c :: cl, fs)
    else
      let (cl, fs) := extractAux fuel rest
      (c :: cl, fs)

/-- `extract_remember_tags` in `dialogue.rs`: collect all `[REMEMBER: ...]`
captures (each trimmed), remove the matches from the text, and trim the
result. -/
def extract_remember_tags (text : String) : String × List String :=
  let (cleaned, caps) := extractAux text.data.length text.data
  (String.mk (rustTrim cleaned), caps.map (fun cap => String.mk (rustTrim cap)))

/-- `ContentBlock` in `dialogue.rs`: one block of the API response body. -/
structure ContentBlock where
  block_type : Option String
  text : Option String
deriving DecidableEq, Repr

/-- Rust's `Iterator::rposition`: index of the last element satisfying the
predicate. -/
def rposition {α : Type} (p : α → Bool) (l : List α) : Option Nat :=
  match l.reverse.findIdx? p with
  | some i => some (l.length - 1 - i)
  | none => none

/-- The answer-extraction step of `generate_pet_dialogue`: concatenate every
text block after the last `web_search_tool_result` block (from the start
when there is none). -/
def rawAnswer (content : List ContentBlock) : String :=
  let start :=
    match rposition (fun b => b.block_type == some "web_search_tool_result") content with
    | some i => i + 1
    | none => 0
  String.join (((content.drop start).filter
    (fun b => b.block_type == some "text")).filterMap ContentBlock.text)

/-- The cleanup step of `generate_pet_dialogue`:
`answer.trim().trim_start_matches(['.', ',', ';', ':']).trim()`. -/
def cleanupAnswer (s : String) : String :=
  String.mk (rustTrim ((rustTrim s.data).dropWhile
    (fun c => c = '.' ∨ c = ',' ∨ c = ';' ∨ c = ':')))

/-- The time-derived strings of `dialogue.rs`, modelling `chrono::Local::now()`:
the hour parsed from `"%H"` formatting, the `"%A, %B %-d, %Y at %H:%M"`
rendering, and the `"%B %-d, %Y"` rendering. -/
structure TimeInfo where
  hour : Nat
  formattedNow : String
  formattedDate : String
deriving DecidableEq, Repr

/-- The time-of-day bucket in `build_system_prompt`. -/
def time_of_day (h : Nat) : String :=
  if h ≤ 5 then "late night"
  else if h ≤ 11 then "morning"
  else if h ≤ 16 then "afternoon"
  else if h ≤ 20 then "evening"
  else "night"

/-- The `context` string of `build_system_prompt`. -/
def context_line (formattedNow tod app_name window_title : String) : String :=
  "Current date and time: " ++ formattedNow ++ " (" ++ tod ++ "). User is using: "
    ++ app_name ++ " (window: \"" ++ window_title ++ "\")."

/-- The `no_actions` string of `build_system_prompt`. -/
def no_actions : String :=
  "Never narrate actions in asterisks like *stretches* or *yawns* or *purrs*. Just speak naturally as a cat would."

/-- The `facts_section` string of `build_system_prompt`: numbered facts,
period-joined, or empty. -/
def facts_section (facts : List String) : String :=
  if facts.isEmpty then ""
  else " Things you remember about your owner: "
    ++ String.intercalate ". "
      (facts.enum.map (fun p => toString (p.1 + 1) ++ ") " ++ p.2))

/-- `build_system_prompt` in `dialogue.rs`, with the `chrono` clock passed
in as `now`.  The Rust `match mode` over string literals becomes an
if-chain; the multi-line string literals are written out with Rust's
backslash-newline continuations resolved. -/
def build_system_prompt (mode : String) (now : TimeInfo)
    (app_name window_title : String) (facts : List String) : String :=
  let tod := time_of_day now.hour
  let context := context_line now.formattedNow tod app_name window_title
  let fs := facts_section facts
  if mode = "chat" then
    "You are a cute cat desktop pet living on the user\x27s screen. You are chatting with your owner. Keep responses to 1-3 short sentences. Be playful, curious, and cat-like. "
      ++ no_actions
      ++ " Never use emojis. If the user asks you to remember, note, or remind them of something, extract the key info and include it as [NOTE: ...] in your response, followed by a short confirmation. For example if they say \x27remind me to call the dentist\x27, respond like \x27Got it, I will stick that up for you! [NOTE: Call the dentist]\x27. If the user tells you something personal or worth remembering (their name, preferences, important events), include [REMEMBER: key fact] in your response. For example if they say \x27My name is Jackson\x27, respond like \x27Nice to meet you, Jackson! [REMEMBER: Owner\x27s name is Jackson]\x27."
      ++ fs ++ " Context: " ++ context
  else if mode = "judge" then
    "You are a judgmental cat desktop pet. Roast and judge what the user is currently doing based on their active application and window title. Be sassy, sarcastic, and funny but not mean-spirited. Keep it to 1-2 sentences. "
      ++ no_actions ++ " Never use emojis. Context: " ++ context
  else if mode = "search" then
    "You are a cat desktop pet that can search the web. The user searched for something. Use the web_search tool to find current, accurate information. IMPORTANT: For time-sensitive queries (scores, weather, news), include today\x27s date ("
      ++ now.formattedDate
      ++ ") in your search query. CRITICAL: Your answer MUST be 1-2 short sentences only (under 150 characters). Be direct - just state the answer. No hedging, no caveats, no suggestions to search elsewhere. "
      ++ no_actions ++ " Never use emojis. Context: " ++ context
  else if mode = "journal" then
    "You are a cat writing in your personal diary. Write a short diary entry (2-4 sentences) about today. Be introspective, cat-like, and reference the events provided. Write in first person as a cat. "
      ++ no_actions ++ " Never use emojis. Context: " ++ context
  else if mode = "achievement" then
    "You are a cute cat desktop pet. Your owner just unlocked an achievement or trophy. React with a short excited comment (1 sentence, under 60 characters). Be proud and cat-like. "
      ++ no_actions ++ " Never use emojis."
  else
    "You are a cute cat desktop pet living on the user\x27s screen. Keep responses to 1-2 very short sentences (under 80 characters total). Be playful, curious, and cat-like. "
      ++ no_actions
      ++ " Never use emojis. React to what the user is doing based on the context. Context: "
      ++ context

/-- `build_user_message` in `dialogue.rs`, with today's `chrono` date string
passed in. -/
def build_user_message (mode today trigger user_input : String) : String :=
  if mode = "chat" then "Your owner says: \"" ++ user_input ++ "\""
  else if mode = "judge" then "Judge what I\x27m doing right now. Trigger: " ++ trigger
  else if mode = "search" then "Today is " ++ today ++ ". I searched for: " ++ user_input
  else if mode = "journal" then
    "Write a diary entry about today. Here are the events: " ++ trigger
  else if mode = "achievement" then "React to unlocking this achievement: " ++ trigger
  else "Say something as a cat desktop pet. Trigger: " ++ trigger

/-- The mode-dependent `max_tokens` budget in `generate_pet_dialogue`. -/
def maxTokensFor (mode : String) : Nat :=
  if mode = "search" then 256
  else if mode = "journal" then 200
  else if mode = "chat" then 150
  else 100

/-- `Message` in `dialogue.rs`: one entry of the outgoing message array. -/
structure ApiMessage where
  role : String
  content : String
deriving DecidableEq, Repr

/-- `ClaudeRequest` in `dialogue.rs`.  The `tools` field holds opaque
`serde_json` values in the source; it is modelled by the declared tool type
string (`none` when no tool is attached). -/
structure ClaudeRequest where
  model : String
  max_tokens : Nat
  system : String
  messages : List ApiMessage
  tools : Option String
deriving DecidableEq, Repr

/-- Outcome of the HTTP round trip and of the `serde_json` parsing of its
body, the two external effects between building the request and the pure
response processing:
`sendErr` is a failed `send()`, `readErr` a failed `text()`, `httpErr` a
non-success status (carrying the rendered status and the upstream error
message when the error body parsed), `parseErr` a success status whose body
failed to parse as `ClaudeResponse`, and `parsed` a successfully parsed
`content` array. -/
inductive NetResult where
  | sendErr (e : String)
  | readErr (e : String)
  | httpErr (status : String) (parsedMsg : Option String)
  | parseErr (e : String)
  | parsed (content : List ContentBlock)
deriving DecidableEq, Repr

/-- `generate_pet_dialogue` in `dialogue.rs`.  External effects are passed
in: `apiKey` is the `ANTHROPIC_API_KEY` environment lookup, `now` the
`chrono` clock, `store` the record `memory::load_memory` returns (loaded
only in chat mode), and `net` the transport/parse outcome for the request
it is given.  The returned pair is the turn's `Result` and the memory
record persisted by the turn (unchanged whenever `save_memory` is not
reached). -/
def generate_pet_dialogue (apiKey : Option String)
    (app_name window_title trigger : String)
    (mode? user_input? : Option String) (now : TimeInfo) (store : ChatMemory)
    (net : ClaudeRequest → NetResult) : Except String String × ChatMemory :=
  match apiKey with
  | none => (.error "ANTHROPIC_API_KEY not set", store)
  | some _ =>
    let mode := mode?.getD "spontaneous"
    let user_input := user_input?.getD ""
    let chat_memory : Option ChatMemory := if mode = "chat" then some store else none
    let facts := ((chat_memory.map ChatMemory.facts).getD [])
    let system_prompt := build_system_prompt mode now app_name window_title facts
    let user_message := build_user_message mode now.formattedDate trigger user_input
    let max_tokens := maxTokensFor mode
    let tools := if mode = "search" then some "web_search_20250305" else none
    let history := ((chat_memory.map ChatMemory.messages).getD [])
    let messages :=
      history.map (fun m => (⟨m.role, m.content⟩ : ApiMessage))
        ++ [(⟨"user", user_message⟩ : ApiMessage)]
    let request : ClaudeRequest :=
      ⟨"claude-haiku-4-5-20251001", max_tokens, system_prompt, messages, tools⟩
    match net request with
    | .sendErr e => (.error ("Request failed: " ++ e), store)
    | .readErr e => (.error ("Failed to read response: " ++ e), store)
    | .httpErr status msg => (.error (msg.getD ("API error: " ++ status)), store)
    | .parseErr e => (.error ("Failed to parse response: " ++ e), store)
    | .parsed content =>
      let answer := cleanupAnswer (rawAnswer content)
      if answer = "" then (.error "Empty response from Claude", store)
      else if mode = "chat" then
        let pr := extract_remember_tags answer
        let mem := pr.2.foldl add_fact store
        let mem2 := add_exchange mem user_input pr.1
        (.ok pr.1, mem2)
      else (.ok answer, store)

/-! ## Theorems -/

/-- One `add_exchange` step keeps the message count even and within the cap. -/
theorem add_exchange_length (m : ChatMemory) (u a : String)
    (h2 : m.messages.length % 2 = 0) (hle : m.messages.length ≤ 2 * MAX_MESSAGE_PAIRS) :
    (add_exchange m u a).messages.length % 2 = 0 ∧
      (add_exchange m u a).messages.length ≤ 2 * MAX_MESSAGE_PAIRS := by
  unfold add_exchange MAX_MESSAGE_PAIRS at *
  dsimp only
  split
  · simp only [List.length_drop, List.length_append, List.length_cons, List.length_nil]
    omega
  · rename_i hgt
    simp only [List.length_append, List.length_cons, List.length_nil] at *
    omega

/-- `add_exchange` returns a suffix of the old messages with the new pair
appended: the oldest entries go first and the survivors keep their order. -/
theorem add_exchange_suffix (m : ChatMemory) (u a : String) :
    (add_exchange m u a).messages <:+ m.messages ++ [⟨"user", u⟩, ⟨"assistant", a⟩] := by
  unfold add_exchange
  dsimp only
  split
  · exact List.drop_suffix _ _
  · exact List.suffix_refl _

/-- The even/cap invariant survives any fold of `add_exchange` steps. -/
theorem add_exchange_foldl_inv (ops : List (String × String)) :
    ∀ m : ChatMemory, m.messages.length % 2 = 0 →
      m.messages.length ≤ 2 * MAX_MESSAGE_PAIRS →
      ((ops.foldl (fun acc p => add_exchange acc p.1 p.2) m).messages.length % 2 = 0 ∧
        (ops.foldl (fun acc p => add_exchange acc p.1 p.2) m).messages.length
          ≤ 2 * MAX_MESSAGE_PAIRS) := by
  induction ops with
  | nil => exact fun m h2 hle => ⟨h2, hle⟩
  | cons p ops ih =>
    intro m h2 hle
    have h := add_exchange_length m p.1 p.2 h2 hle
    exact ih _ h.1 h.2

/-- C1: starting from an empty record, any sequence of `add_exchange` calls
keeps `messages.length` even and at most `2 * MAX_MESSAGE_PAIRS` (40), and
each call returns a suffix of the old messages with the new pair appended,
so eviction is oldest-first and the survivors keep their relative order. -/
theorem claim_C1 (ops : List (String × String)) :
    ((ops.foldl (fun acc p => add_exchange acc p.1 p.2) emptyMemory).messages.length % 2 = 0 ∧
      (ops.foldl (fun acc p => add_exchange acc p.1 p.2) emptyMemory).messages.length
        ≤ 2 * MAX_MESSAGE_PAIRS) ∧
    ∀ (m : ChatMemory) (u a : String),
      (add_exchange m u a).messages <:+ m.messages ++ [⟨"user", u⟩, ⟨"assistant", a⟩] :=
  ⟨add_exchange_foldl_inv ops emptyMemory rfl (by simp [emptyMemory]),
   fun m u a => add_exchange_suffix m u a⟩

/-- The duplicate test in `add_fact` is exactly membership. -/
theorem add_fact_any_eq (m : ChatMemory) (f : String) :
    (m.facts.any (fun x => x == f)) = true ↔ f ∈ m.facts := by
  simp [List.any_eq_true]

/-- `add_fact` on an already-present fact changes nothing. -/
theorem add_fact_mem (m : ChatMemory) (f : String) (h : f ∈ m.facts) :
    add_fact m f = m := by
  unfold add_fact
  rw [if_pos ((add_fact_any_eq m f).2 h)]

/-- `add_fact` on a fresh fact at the cap evicts exactly the oldest entry. -/
theorem add_fact_evict (m : ChatMemory) (f : String) (h : f ∉ m.facts)
    (hlen : m.facts.length + 1 > MAX_FACTS) :
    (add_fact m f).facts = m.facts.tail ++ [f] := by
  unfold add_fact
  rw [if_neg (fun hc => h ((add_fact_any_eq m f).1 hc))]
  simp only [List.length_append, List.length_cons, List.length_nil]
  rw [if_pos (by simpa using hlen)]
  unfold MAX_FACTS at hlen
  match m.facts, hlen with
  | x :: xs, _ => simp

/-- One `add_fact` step keeps the fact list duplicate-free and within the cap. -/
theorem add_fact_inv (m : ChatMemory) (f : String)
    (hnd : m.facts.Nodup) (hle : m.facts.length ≤ MAX_FACTS) :
    (add_fact m f).facts.Nodup ∧ (add_fact m f).facts.length ≤ MAX_FACTS := by
  unfold add_fact
  split
  · exact ⟨hnd, hle⟩
  · rename_i hany
    have hf : f ∉ m.facts := fun hmem => hany ((add_fact_any_eq m f).2 hmem)
    have hnd2 : (m.facts ++ [f]).Nodup := by
      simp [List.nodup_append, hnd, hf]
    dsimp only
    split
    · rename_i hgt
      refine ⟨(List.eraseIdx_sublist (m.facts ++ [f]) 0).nodup hnd2, ?_⟩
      simp only [List.length_eraseIdx, List.length_append, List.length_cons,
        List.length_nil] at *
      rw [if_pos (by omega)]
      omega
    · rename_i hng
      simp only [List.length_append, List.length_cons, List.length_nil] at *
      exact ⟨hnd2, by omega⟩

/-- The nodup/cap invariant survives any fold of `add_fact` steps. -/
theorem add_fact_foldl_inv (ops : List String) :
    ∀ m : ChatMemory, m.facts.Nodup → m.facts.length ≤ MAX_FACTS →
      ((ops.foldl add_fact m).facts.Nodup ∧
        (ops.foldl add_fact m).facts.length ≤ MAX_FACTS) := by
  induction ops with
  | nil => exact fun m hnd hle => ⟨hnd, hle⟩
  | cons f ops ih =>
    intro m hnd hle
    have h := add_fact_inv m f hnd hle
    exact ih _ h.1 h.2

/-- C2: starting from an empty record, any sequence of `add_fact` calls keeps
`facts` duplicate-free and at most `MAX_FACTS` (50) long; a duplicate fact
leaves the record entirely unchanged, and an insertion over the cap removes
exactly the single oldest entry. -/
theorem claim_C2 (ops : List String) :
    ((ops.foldl add_fact emptyMemory).facts.Nodup ∧
      (ops.foldl add_fact emptyMemory).facts.length ≤ MAX_FACTS) ∧
    (∀ (m : ChatMemory) (f : String), f ∈ m.facts → add_fact m f = m) ∧
    (∀ (m : ChatMemory) (f : String), f ∉ m.facts → m.facts.length + 1 > MAX_FACTS →
      (add_fact m f).facts = m.facts.tail ++ [f]) :=
  ⟨add_fact_foldl_inv ops emptyMemory (by simp [emptyMemory]) (by simp [emptyMemory]),
   add_fact_mem, add_fact_evict⟩

/-- Witness for C2 at concrete inputs: a duplicate insert is the identity,
and a fresh insert at the cap drops exactly the oldest fact. -/
theorem claim_C2_witness :
    (add_fact ⟨[], ["a", "b"]⟩ "a" = ⟨[], ["a", "b"]⟩) ∧
    ((add_fact ⟨[], (List.range 50).map (fun i => toString i)⟩ "new").facts =
      ((List.range 50).map (fun i => toString i)).tail ++ ["new"]) :=
  ⟨(claim_C2 []).2.1 ⟨[], ["a", "b"]⟩ "a" (by decide),
   (claim_C2 []).2.2 ⟨[], (List.range 50).map (fun i => toString i)⟩ "new"
     (by decide) (by decide)⟩

/-- `hexVal` inverts `Nat.digitChar` on hex digits. -/
theorem hexVal_digitChar (n : Nat) (h : n < 16) : hexVal (Nat.digitChar n) = some n := by
  interval_cases n <;> decide

/-- Unfolding `parseStringBody` on an ordinary (unescaped) character. -/
theorem parseStringBody_lit (c : Char) (X : List Char)
    (h1 : ¬ c = '"') (h2 : ¬ c = '\\') (h3 : ¬ c.toNat < 32) :
    parseStringBody (c :: X) =
      (match parseStringBody X with
       | some (s, r) => some (c :: s, r)
       | none => none) := by
  rw [parseStringBody.eq_def]
  simp only [if_neg h1, if_neg h2, if_neg h3]

/-- Unfolding `parseStringBody` on a `\u00XX` escape. -/
theorem parseStringBody_uEscape (d1 d2 : Char) (a b : Nat) (X : List Char)
    (h1 : hexVal d1 = some a) (h2 : hexVal d2 = some b) :
    parseStringBody ('\\' :: 'u' :: '0' :: '0' :: d1 :: d2 :: X) =
      (match parseStringBody X with
       | some (s, r) => some (Char.ofNat (((0 * 16 + 0) * 16 + a) * 16 + b) :: s, r)
       | none => none) := by
  have e0 : hexVal '0' = some 0 := by decide
  rw [parseStringBody.eq_def]
  simp only [e0, h1, h2]
  rfl

/-- The string-body parser inverts per-character escaping: an escaped run
followed by a closing quote parses back to the original characters. -/
theorem parseStringBody_flatMap (s : List Char) (rest : List Char) :
    parseStringBody (s.flatMap escapeChar ++ '"' :: rest) = some (s, rest) := by
  induction s with
  | nil =>
    simp only [List.flatMap_nil, List.nil_append]
    rw [parseStringBody.eq_def]
    dsimp only
    rw [if_pos rfl]
  | cons c cs ih =>
    rw [List.flatMap_cons, List.append_assoc]
    set X := cs.flatMap escapeChar ++ '"' :: rest with hX
    by_cases h1 : c = '"'
    · subst h1
      simp only [show escapeChar '"' = ['\\', '"'] from rfl, List.cons_append,
        List.nil_append]
      rw [show parseStringBody ('\\' :: '"' :: X) =
          (match parseStringBody X with
           | some (s, r) => some ('"' :: s, r)
           | none => none) from rfl, ih]
    · by_cases h2 : c = '\\'
      · subst h2
        simp only [show escapeChar '\\' = ['\\', '\\'] from rfl, List.cons_append,
          List.nil_append]
        rw [show parseStringBody ('\\' :: '\\' :: X) =
            (match parseStringBody X with
             | some (s, r) => some ('\\' :: s, r)
             | none => none) from rfl, ih]
      · by_cases h3 : c = '\x08'
        · subst h3
          simp only [show escapeChar '\x08' = ['\\', 'b'] from rfl, List.cons_append,
            List.nil_append]
          rw [show parseStringBody ('\\' :: 'b' :: X) =
              (match parseStringBody X with
               | some (s, r) => some ('\x08' :: s, r)
               | none => none) from rfl, ih]
        · by_cases h4 : c = '\x0c'
          · subst h4
            simp only [show escapeChar '\x0c' = ['\\', 'f'] from rfl, List.cons_append,
              List.nil_append]
            rw [show parseStringBody ('\\' :: 'f' :: X) =
                (match parseStringBody X with
                 | some (s, r) => some ('\x0c' :: s, r)
                 | none => none) from rfl, ih]
          · by_cases h5 : c = '\n'
            · subst h5
              simp only [show escapeChar '\n' = ['\\', 'n'] from rfl, List.cons_append,
                List.nil_append]
              rw [show parseStringBody ('\\' :: 'n' :: X) =
                  (match parseStringBody X with
                   | some (s, r) => some ('\n' :: s, r)
                   | none => none) from rfl, ih]
            · by_cases h6 : c = '\r'
              · subst h6
                simp only [show escapeChar '\r' = ['\\', 'r'] from rfl, List.cons_append,
                  List.nil_append]
                rw [show parseStringBody ('\\' :: 'r' :: X) =
                    (match parseStringBody X with
                     | some (s, r) => some ('\r' :: s, r)
                     | none => none) from rfl, ih]
              · by_cases h7 : c = '\t'
                · subst h7
                  simp only [show escapeChar '\t' = ['\\', 't'] from rfl, List.cons_append,
                    List.nil_append]
                  rw [show parseStringBody ('\\' :: 't' :: X) =
                      (match parseStringBody X with
                       | some (s, r) => some ('\t' :: s, r)
                       | none => none) from rfl, ih]
                · by_cases h8 : c.toNat < 32
                  · rw [escapeChar, if_neg h1, if_neg h2, if_neg h3, if_neg h4, if_neg h5,
                      if_neg h6, if_neg h7, if_pos h8]
                    simp only [List.cons_append, List.nil_append]
                    rw [parseStringBody_uEscape _ _ _ _ X
                      (hexVal_digitChar _ (by omega)) (hexVal_digitChar _ (by omega)), ih]
                    have hv : ((0 * 16 + 0) * 16 + c.toNat / 16) * 16 + c.toNat % 16
                        = c.toNat := by omega
                    rw [hv, Char.ofNat_toNat]
                  · rw [escapeChar, if_neg h1, if_neg h2, if_neg h3, if_neg h4, if_neg h5,
                      if_neg h6, if_neg h7, if_neg h8]
                    simp only [List.cons_append, List.nil_append]
                    rw [parseStringBody_lit c X h1 h2 h8, ih]

/-- `parseJsonString` inverts `encodeJsonString`, leaving the rest intact. -/
theorem parseJsonString_encode (s : String) (rest : List Char) :
    parseJsonString (encodeJsonString s ++ rest) = some (s, rest) := by
  rw [encodeJsonString, List.cons_append, List.append_assoc]
  rw [show ((['"'] : List Char) ++ rest) = '"' :: rest from rfl]
  rw [parseJsonString, parseStringBody_flatMap]

/-- `expectChars` consumes exactly the expected literal prefix. -/
theorem expectChars_append (lit cs : List Char) : expectChars lit (lit ++ cs) = some cs := by
  induction lit with
  | nil => rfl
  | cons l ls ih => simp [expectChars, ih]

/-- `parseMessageJson` inverts `encodeMessageJson`, leaving the rest intact. -/
theorem parseMessageJson_encode (m : MemoryMessage) (rest : List Char) :
    parseMessageJson (encodeMessageJson m ++ rest) = some (m, rest) := by
  rw [parseMessageJson, encodeMessageJson]
  rw [List.append_assoc, List.append_assoc, List.append_assoc, List.append_assoc]
  rw [expectChars_append]
  dsimp only
  rw [parseJsonString_encode]
  dsimp only
  rw [expectChars_append]
  dsimp only
  rw [parseJsonString_encode]
  dsimp only
  simp only [List.cons_append, List.nil_append]
  rw [if_pos trivial]

/-- Each rendered element is at least one character, so the input length is
enough fuel for `parseArrayItems`. -/
theorem encodeSepBody_length_ge {α : Type} (enc : α → List Char)
    (h : ∀ x, 1 ≤ (enc x).length) :
    ∀ xs : List α, xs.length ≤ (encodeSepBody enc xs).length := by
  intro xs
  induction xs with
  | nil => simp [encodeSepBody]
  | cons x ys ih =>
    cases ys with
    | nil => simpa [encodeSepBody] using h x
    | cons y zs =>
      rw [encodeSepBody]
      simp only [List.length_append, List.length_cons]
      have := h x
      simp only [List.length_cons] at ih ⊢
      omega

/-- `parseArrayItems` at the closing bracket yields the empty list. -/
theorem parseArrayItems_closing {α : Type} (pElem : List Char → Option (α × List Char))
    (fuel : Nat) (rest : List Char) :
    parseArrayItems pElem fuel (']' :: rest) = some ([], rest) := by
  rw [parseArrayItems.eq_def]
  dsimp only
  rw [if_pos rfl]

/-- Unfolding `parseArrayItems` on a non-`]` head with positive fuel. -/
theorem parseArrayItems_cons_ne {α : Type} (pElem : List Char → Option (α × List Char))
    (f : Nat) (c : Char) (rest : List Char) (h : ¬ c = ']') :
    parseArrayItems pElem (f + 1) (c :: rest) =
      (match pElem (c :: rest) with
       | none => none
       | some (x, cs2) =>
         match cs2 with
         | [] => none
         | c2 :: cs3 =>
           if c2 = ',' then
             match parseArrayItems pElem f cs3 with
             | none => none
             | some (xs, r) => some (x :: xs, r)
           else if c2 = ']' then some ([x], cs3)
           else none) := by
  rw [parseArrayItems.eq_def]
  dsimp only
  rw [if_neg h]

/-- `parseArrayItems` inverts the comma-separated rendering, given an
element parser that inverts the element renderer and elements that do not
start with `]`. -/
theorem parseArrayItems_encode {α : Type} (pElem : List Char → Option (α × List Char))
    (enc : α → List Char)
    (hp : ∀ x r, pElem (enc x ++ r) = some (x, r))
    (hhead : ∀ x, ∃ c cs, enc x = c :: cs ∧ c ≠ ']') :
    ∀ (xs : List α) (fuel : Nat) (rest : List Char), xs.length ≤ fuel →
      parseArrayItems pElem fuel (encodeSepBody enc xs ++ ']' :: rest) = some (xs, rest) := by
  intro xs
  induction xs with
  | nil =>
    intro fuel rest _
    rw [encodeSepBody, List.nil_append, parseArrayItems_closing]
  | cons x ys ih =>
    intro fuel rest hlen
    cases fuel with
    | zero => simp at hlen
    | succ f =>
      obtain ⟨c, cs, hxc, hcne⟩ := hhead x
      cases ys with
      | nil =>
        rw [encodeSepBody, hxc, List.cons_append,
          parseArrayItems_cons_ne pElem f c _ hcne, ← List.cons_append, ← hxc,
          hp x (']' :: rest)]
        dsimp only
        rw [if_neg (by decide), if_pos rfl]
      | cons y zs =>
        rw [encodeSepBody, List.append_assoc, List.cons_append, hxc, List.cons_append,
          parseArrayItems_cons_ne pElem f c _ hcne, ← List.cons_append, ← hxc,
          hp x (',' :: (encodeSepBody enc (y :: zs) ++ ']' :: rest))]
        dsimp only
        rw [if_pos rfl, ih f rest (by simp only [List.length_cons] at hlen ⊢; omega)]

/-- The document parser inverts the document renderer: the modelled
`serde_json` round-trip for the whole persisted document. -/
theorem parseMemory_encodeMemory (m : ChatMemory) : parseMemory (encodeMemory m) = some m := by
  have hmsg_head : ∀ x : MemoryMessage, ∃ c cs, encodeMessageJson x = c :: cs ∧ c ≠ ']' :=
    fun x => ⟨'{', _, rfl, by decide⟩
  have hstr_head : ∀ x : String, ∃ c cs, encodeJsonString x = c :: cs ∧ c ≠ ']' :=
    fun x => ⟨'"', _, rfl, by decide⟩
  have hmsg_len : ∀ x : MemoryMessage, 1 ≤ (encodeMessageJson x).length := by
    intro x
    obtain ⟨c, cs, hx, _⟩ := hmsg_head x
    simp [hx]
  have hstr_len : ∀ x : String, 1 ≤ (encodeJsonString x).length := by
    intro x
    simp [encodeJsonString]
  rw [parseMemory, encodeMemory]
  rw [show (String.mk (("\x7b\"messages\":[".data) ++ encodeSepBody encodeMessageJson m.messages
      ++ [']'] ++ (",\"facts\":[".data) ++ encodeSepBody encodeJsonString m.facts
      ++ [']', '}'])).data
    = ("\x7b\"messages\":[".data) ++ encodeSepBody encodeMessageJson m.messages
      ++ [']'] ++ (",\"facts\":[".data) ++ encodeSepBody encodeJsonString m.facts
      ++ [']', '}'] from rfl]
  rw [parseMemoryDoc]
  rw [List.append_assoc, List.append_assoc, List.append_assoc, List.append_assoc,
    expectChars_append]
  dsimp only
  rw [show ((([']'] : List Char) ++ ((",\"facts\":[".data)
        ++ (encodeSepBody encodeJsonString m.facts ++ [']', '}']))))
      = ']' :: ((",\"facts\":[".data)
        ++ (encodeSepBody encodeJsonString m.facts ++ [']', '}'])) from rfl]
  rw [parseArrayItems_encode parseMessageJson encodeMessageJson
    parseMessageJson_encode hmsg_head m.messages _ _
    (le_trans (encodeSepBody_length_ge encodeMessageJson hmsg_len m.messages)
      (by simp only [List.length_append]; omega))]
  dsimp only
  rw [expectChars_append]
  dsimp only
  rw [show ((encodeSepBody encodeJsonString m.facts ++ ([']', '}'] : List Char)))
      = encodeSepBody encodeJsonString m.facts ++ ']' :: ['}'] from rfl]
  rw [parseArrayItems_encode parseJsonString encodeJsonString
    parseJsonString_encode hstr_head m.facts _ _
    (le_trans (encodeSepBody_length_ge encodeJsonString hstr_len m.facts)
      (by simp only [List.length_append]; omega))]
  dsimp only
  rw [if_pos rfl]

/-- C8: `load_memory` returns the empty record on an absent/unreadable file
and on unparseable content, never an error; and a `save_memory`d record
loads back with identical messages and facts in the same order. -/
theorem claim_C8 :
    load_memory none = emptyMemory ∧
    (∀ s : String, parseMemory s = none → load_memory (some s) = emptyMemory) ∧
    (∀ m : ChatMemory, load_memory (save_memory m) = m) := by
  refine ⟨rfl, ?_, ?_⟩
  · intro s hs
    rw [load_memory, hs]
    rfl
  · intro m
    rw [save_memory, load_memory, parseMemory_encodeMemory m]
    rfl

/-- Witness for C8 at concrete inputs: unparseable content loads as the
empty record, and a record with escapes in its strings round-trips. -/
theorem claim_C8_witness :
    load_memory (some "not json at all") = emptyMemory ∧
    load_memory (save_memory ⟨[⟨"user", "hi \"you\"\n"⟩, ⟨"assistant", "ok\\done"⟩],
      ["likes\ttea", "name is Jackson"]⟩) =
      ⟨[⟨"user", "hi \"you\"\n"⟩, ⟨"assistant", "ok\\done"⟩],
      ["likes\ttea", "name is Jackson"]⟩ :=
  ⟨claim_C8.2.1 "not json at all" (by decide),
   claim_C8.2.2 ⟨[⟨"user", "hi \"you\"\n"⟩, ⟨"assistant", "ok\\done"⟩],
      ["likes\ttea", "name is Jackson"]⟩⟩

/-- C4 counterexample: on the spec's four-block response the code extracts
`"The answer."`, not `"answer."` — every text block after the last
search-result block is kept, including `"The "`. -/
theorem claim_C4_cex :
    cleanupAnswer (rawAnswer
      [⟨some "text", some "cite"⟩, ⟨some "web_search_tool_result", none⟩,
       ⟨some "text", some "The "⟩, ⟨some "text", some "answer."⟩]) = "The answer." ∧
    ("The answer." : String) ≠ "answer." := by
  constructor
  · decide
  · decide

/-- C4 amended: for blocks `[text:"cite"], [search_result], [text:"The "],
[text:"answer."]` the extracted answer is exactly `"The answer."` — the
blocks before the last search-result block are discarded and the text
blocks after it are concatenated. -/
theorem claim_C4 :
    rawAnswer
      [⟨some "text", some "cite"⟩, ⟨some "web_search_tool_result", none⟩,
       ⟨some "text", some "The "⟩, ⟨some "text", some "answer."⟩] = "The answer." ∧
    cleanupAnswer "The answer." = "The answer." := by
  constructor
  · decide
  · decide

/-- C5 counterexample: the code's cleaned text keeps both spaces that
surrounded the removed annotation, giving `"Got it!  anything else?"`
(two spaces), not `"Got it! anything else?"`. -/
theorem claim_C5_cex :
    extract_remember_tags "Got it! [REMEMBER: Owner\x27s name is Jackson] anything else?" =
      ("Got it!  anything else?", ["Owner\x27s name is Jackson"]) ∧
    ("Got it!  anything else?" : String) ≠ "Got it! anything else?" := by
  constructor
  · decide
  · decide

/-- C5 amended: `extract_remember_tags` on the spec's example returns the
fact list `["Owner's name is Jackson"]` and the cleaned text
`"Got it!  anything else?"`, where the removed annotation leaves two
consecutive spaces (only leading/trailing whitespace is trimmed). -/
theorem claim_C5 :
    extract_remember_tags "Got it! [REMEMBER: Owner\x27s name is Jackson] anything else?" =
      ("Got it!  anything else?", ["Owner\x27s name is Jackson"]) := by
  decide

/-- C7: when the transport and body parse succeed, the turn fails with the
empty-response error exactly when the concatenated answer is empty after
trimming whitespace and leading punctuation. -/
theorem claim_C7 (key app_name window_title trigger : String)
    (mode? user_input? : Option String) (now : TimeInfo) (store : ChatMemory)
    (content : List ContentBlock) :
    (generate_pet_dialogue (some key) app_name window_title trigger mode? user_input?
        now store (fun _ => .parsed content)).1 = .error "Empty response from Claude" ↔
      cleanupAnswer (rawAnswer content) = "" := by
  rw [generate_pet_dialogue.eq_def]
  dsimp only
  by_cases h : cleanupAnswer (rawAnswer content) = ""
  · rw [if_pos h]
    simp [h]
  · rw [if_neg h]
    by_cases hm : mode?.getD "spontaneous" = "chat"
    · rw [if_pos hm]
      simp [h]
    · rw [if_neg hm]
      simp [h]

/-- C3 counterexample: in a non-chat mode (`judge`) the returned display
text still contains the `[REMEMBER: ...]` annotation verbatim; the
stripped text differs, so the annotation was not removed. -/
theorem claim_C3_cex :
    (generate_pet_dialogue (some "key") "app" "win" "trig" (some "judge") none
        ⟨12, "now", "today"⟩ emptyMemory
        (fun _ => .parsed [⟨some "text", some "Hi [REMEMBER: x] there"⟩])).1 =
      .ok "Hi [REMEMBER: x] there" ∧
    (extract_remember_tags "Hi [REMEMBER: x] there").1 = "Hi  there" ∧
    ("Hi [REMEMBER: x] there" : String) ≠ "Hi  there" := by
  refine ⟨?_, ?_, ?_⟩
  · rfl
  · decide
  · decide

/-- C3 amended: `[REMEMBER: ...]` annotations are stripped from the display
text only in chat mode; in every other mode the answer is returned
verbatim, annotations included. -/
theorem claim_C3 (key app_name window_title trigger : String)
    (mode? user_input? : Option String) (now : TimeInfo) (store : ChatMemory)
    (content : List ContentBlock)
    (hne : cleanupAnswer (rawAnswer content) ≠ "") :
    (mode?.getD "spontaneous" = "chat" →
      (generate_pet_dialogue (some key) app_name window_title trigger mode? user_input?
          now store (fun _ => .parsed content)).1 =
        .ok (extract_remember_tags (cleanupAnswer (rawAnswer content))).1) ∧
    (mode?.getD "spontaneous" ≠ "chat" →
      (generate_pet_dialogue (some key) app_name window_title trigger mode? user_input?
          now store (fun _ => .parsed content)).1 =
        .ok (cleanupAnswer (rawAnswer content))) := by
  constructor
  · intro hm
    rw [generate_pet_dialogue.eq_def]
    dsimp only
    rw [if_neg hne, if_pos hm]
  · intro hm
    rw [generate_pet_dialogue.eq_def]
    dsimp only
    rw [if_neg hne, if_neg hm]

/-- Witness for C3 at a concrete chat-mode input: the returned text is the
stripped answer. -/
theorem claim_C3_witness :
    (generate_pet_dialogue (some "key") "app" "win" "trig" (some "chat") none
        ⟨12, "now", "today"⟩ emptyMemory
        (fun _ => .parsed [⟨some "text", some "Hi [REMEMBER: x] there"⟩])).1 =
      .ok (extract_remember_tags (cleanupAnswer (rawAnswer
        [⟨some "text", some "Hi [REMEMBER: x] there"⟩]))).1 :=
  (claim_C3 "key" "app" "win" "trig" (some "chat") none ⟨12, "now", "today"⟩ emptyMemory
    [⟨some "text", some "Hi [REMEMBER: x] there"⟩] (by decide)).1 rfl

/-- C9: in chat mode the emptiness check runs before the `[REMEMBER: ...]`
tags are stripped, so an answer consisting only of tags succeeds: the turn
returns the empty string and records an exchange whose assistant text is
empty, together with the extracted facts. -/
theorem claim_C9 (key app_name window_title trigger : String)
    (user_input? : Option String) (now : TimeInfo) (store : ChatMemory)
    (content : List ContentBlock)
    (hne : cleanupAnswer (rawAnswer content) ≠ "")
    (hcl : (extract_remember_tags (cleanupAnswer (rawAnswer content))).1 = "") :
    generate_pet_dialogue (some key) app_name window_title trigger (some "chat")
        user_input? now store (fun _ => .parsed content) =
      (.ok "",
       add_exchange
         ((extract_remember_tags (cleanupAnswer (rawAnswer content))).2.foldl add_fact store)
         (user_input?.getD "") "") := by
  rw [generate_pet_dialogue.eq_def]
  dsimp only
  simp only [Option.getD_some]
  rw [if_neg hne, if_pos trivial, hcl]

/-- Witness for C9 at a concrete input: an answer that is one `[REMEMBER:]`
tag yields `Ok ""` and persists the empty-assistant exchange plus the fact. -/
theorem claim_C9_witness :
    generate_pet_dialogue (some "key") "app" "win" "trig" (some "chat")
        (some "remember this") ⟨12, "now", "today"⟩ emptyMemory
        (fun _ => .parsed [⟨some "text", some "[REMEMBER: Owner likes tea]"⟩]) =
      (.ok "",
       add_exchange
         ((extract_remember_tags (cleanupAnswer (rawAnswer
             [⟨some "text", some "[REMEMBER: Owner likes tea]"⟩]))).2.foldl
           add_fact emptyMemory)
         ((some "remember this").getD "") "") :=
  claim_C9 "key" "app" "win" "trig" (some "remember this") ⟨12, "now", "today"⟩
    emptyMemory [⟨some "text", some "[REMEMBER: Owner likes tea]"⟩]
    (by decide) (by decide)

/-- C6: a turn that returns an error leaves the memory record untouched;
the only mutation happens on a successful chat turn, where the extracted
facts and the new exchange are applied together in one update. -/
theorem claim_C6 (apiKey : Option String) (app_name window_title trigger : String)
    (mode? user_input? : Option String) (now : TimeInfo) (store : ChatMemory)
    (net : ClaudeRequest → NetResult) :
    (generate_pet_dialogue apiKey app_name window_title trigger mode? user_input?
        now store net).2 = store ∨
    ∃ ans : String,
      mode?.getD "spontaneous" = "chat" ∧
      generate_pet_dialogue apiKey app_name window_title trigger mode? user_input?
          now store net =
        (.ok (extract_remember_tags ans).1,
         add_exchange ((extract_remember_tags ans).2.foldl add_fact store)
           (user_input?.getD "") (extract_remember_tags ans).1) := by
  cases apiKey with
  | none => left; rfl
  | some key =>
    rw [generate_pet_dialogue.eq_def]
    dsimp only
    split
    · left; rfl
    · left; rfl
    · left; rfl
    · left; rfl
    · rename_i content _
      by_cases h : cleanupAnswer (rawAnswer content) = ""
      · rw [if_pos h]
        left; rfl
      · rw [if_neg h]
        by_cases hm : mode?.getD "spontaneous" = "chat"
        · rw [if_pos hm]
          right
          exact ⟨cleanupAnswer (rawAnswer content), hm, rfl⟩
        · rw [if_neg hm]
          left; rfl

/-- C10: a missing mode defaults to `"spontaneous"`, and any mode string
outside the six documented values is accepted: it produces the same turn
as `"spontaneous"`, the fallback persona template, and the default
100-token budget. -/
theorem claim_C10 (apiKey : Option String) (app_name window_title trigger : String)
    (user_input? : Option String) (now : TimeInfo) (store : ChatMemory)
    (net : ClaudeRequest → NetResult) :
    generate_pet_dialogue apiKey app_name window_title trigger none user_input?
        now store net =
      generate_pet_dialogue apiKey app_name window_title trigger (some "spontaneous")
        user_input? now store net ∧
    ∀ mode : String, mode ≠ "chat" → mode ≠ "judge" → mode ≠ "search" →
      mode ≠ "journal" → mode ≠ "achievement" →
      (generate_pet_dialogue apiKey app_name window_title trigger (some mode) user_input?
          now store net =
        generate_pet_dialogue apiKey app_name window_title trigger (some "spontaneous")
          user_input? now store net ∧
       build_system_prompt mode now app_name window_title store.facts =
         build_system_prompt "spontaneous" now app_name window_title store.facts ∧
       maxTokensFor mode = 100) := by
  refine ⟨rfl, ?_⟩
  intro mode h1 h2 h3 h4 h5
  have hbsp : ∀ fs : List String,
      build_system_prompt mode now app_name window_title fs =
        build_system_prompt "spontaneous" now app_name window_title fs := by
    intro fs
    rw [build_system_prompt, build_system_prompt]
    simp [h1, h2, h3, h4, h5]
  have hbum : build_user_message mode now.formattedDate trigger (user_input?.getD "") =
      build_user_message "spontaneous" now.formattedDate trigger (user_input?.getD "") := by
    rw [build_user_message, build_user_message]
    simp [h1, h2, h3, h4, h5]
  have hmt : maxTokensFor mode = 100 := by
    rw [maxTokensFor]
    simp [h1, h3, h4]
  refine ⟨?_, hbsp store.facts, hmt⟩
  cases apiKey with
  | none => rfl
  | some key =>
    rw [generate_pet_dialogue.eq_def, generate_pet_dialogue.eq_def]
    simp only [Option.getD_some]
    rw [hbsp, hbum]
    simp [maxTokensFor, h1, h3, h4]

/-- Witness for C10 at a concrete unknown mode string. -/
theorem claim_C10_witness :
    (generate_pet_dialogue (some "k") "a" "w" "t" (some "party") none ⟨9, "n", "d"⟩
        emptyMemory (fun _ => NetResult.sendErr "boom") =
      generate_pet_dialogue (some "k") "a" "w" "t" (some "spontaneous") none ⟨9, "n", "d"⟩
        emptyMemory (fun _ => NetResult.sendErr "boom")) ∧
    build_system_prompt "party" ⟨9, "n", "d"⟩ "a" "w" emptyMemory.facts =
      build_system_prompt "spontaneous" ⟨9, "n", "d"⟩ "a" "w" emptyMemory.facts ∧
    maxTokensFor "party" = 100 :=
  (claim_C10 (some "k") "a" "w" "t" none ⟨9, "n", "d"⟩ emptyMemory
      (fun _ => NetResult.sendErr "boom")).2
    "party" (by decide) (by decide) (by decide) (by decide) (by decide)

end DesktopPet
